import Mathlib

/-!
Shallow embedding of the echo social-feed backend (FastAPI + SQLAlchemy +
PostgreSQL).  Rows of the five tables are Lean structures; the store is a
`DB` record of row lists plus primary-key counters and a logical clock for
store-assigned timestamps.  Each route handler from
`app/api/routes/{posts,engagements,comments}.py` is translated into a pure
function `DB → ... → Except Err DB` (or an enriched-response builder); an
`Except.error` outcome models an HTTPException plus transaction rollback,
so the state is unchanged.  SQLAlchemy's `scalar_one_or_none` is modelled
faithfully, including its multiple-rows exception.  Database-level
`ON DELETE CASCADE` actions declared in `app/models/models.py` are modelled
as transitive closures over the row lists.
-/

namespace Echo

/-- Outcome taxonomy of the route handlers: 404, 400 (duplicate engagement /
self-retweet), 403, 400 (cross-post parent) and unhandled store errors. -/
inductive Err where
  | notFound
  | conflict
  | permissionDenied
  | invalidArgument
  | internalError
deriving DecidableEq, Repr

/-- A row of the `posts` table (`app/models/models.py`, class `Post`). -/
structure PostRow where
  id : Nat
  content : String
  image_url : Option String
  user_id : Nat
  is_retweet : Bool
  original_post_id : Option Nat
  created_at : Nat
  updated_at : Nat
deriving DecidableEq, Repr

/-- A row of the `likes` table (`app/models/models.py`, class `Like`). -/
structure LikeRow where
  id : Nat
  user_id : Nat
  post_id : Nat
  created_at : Nat
deriving DecidableEq, Repr

/-- A row of the `retweets` table (`app/models/models.py`, class `Retweet`). -/
structure RetweetRow where
  id : Nat
  user_id : Nat
  original_post_id : Nat
  created_at : Nat
deriving DecidableEq, Repr

/-- A row of the `comments` table (`app/models/models.py`, class `Comment`). -/
structure CommentRow where
  id : Nat
  content : String
  user_id : Nat
  post_id : Nat
  parent_comment_id : Option Nat
  created_at : Nat
  updated_at : Nat
deriving DecidableEq, Repr

/-- The relational store: the four row lists the claims are about, the
next value of each serial primary key, and a logical clock standing for
`func.now()` (store-assigned timestamps). -/
structure DB where
  posts : List PostRow
  likes : List LikeRow
  retweets : List RetweetRow
  comments : List CommentRow
  nextPostId : Nat
  nextLikeId : Nat
  nextRetweetId : Nat
  nextCommentId : Nat
  now : Nat
deriving DecidableEq, Repr

def DB.empty : DB := ⟨[], [], [], [], 1, 1, 1, 1, 0⟩

/-- SQLAlchemy `Result.scalar_one_or_none`: `none` on zero rows, the row on
exactly one, and a `MultipleResultsFound` exception (an unclassified 500,
hence rollback) on two or more. -/
def scalarOneOrNone {α : Type} : List α → Except Err (Option α)
  | [] => .ok none
  | [a] => .ok (some a)
  | _ :: _ :: _ => .error .internalError

/-- `select(Post).where(Post.id == post_id)`. -/
def postById (db : DB) (pid : Nat) : List PostRow :=
  db.posts.filter (fun p => p.id == pid)

/-- `select(Like).where(Like.user_id == u, Like.post_id == pid)`. -/
def likesByUserPost (db : DB) (u pid : Nat) : List LikeRow :=
  db.likes.filter (fun l => l.user_id == u && l.post_id == pid)

/-- `select(Retweet).where(Retweet.user_id == u, Retweet.original_post_id == pid)`. -/
def retweetsByUserPost (db : DB) (u pid : Nat) : List RetweetRow :=
  db.retweets.filter (fun r => r.user_id == u && r.original_post_id == pid)

/-- `select(Comment).where(Comment.id == cid)`. -/
def commentById (db : DB) (cid : Nat) : List CommentRow :=
  db.comments.filter (fun c => c.id == cid)

/-- `like_post` (`app/api/routes/engagements.py` lines 18-74): 404 if the
post is absent, 400 if a Like for (user, post) already exists, otherwise
insert one Like row and commit.  (The `IntegrityError` handler on commit
only fires under a concurrent duplicate insert, which has no sequential
counterpart.) -/
def like_post (db : DB) (u pid : Nat) : Except Err DB :=
  match scalarOneOrNone (postById db pid) with
  | .error e => .error e
  | .ok none => .error .notFound
  | .ok (some _) =>
    match scalarOneOrNone (likesByUserPost db u pid) with
    | .error e => .error e
    | .ok (some _) => .error .conflict
    | .ok none =>
      .ok { db with
        likes := db.likes ++ [(⟨db.nextLikeId, u, pid, db.now⟩ : LikeRow)],
        nextLikeId := db.nextLikeId + 1,
        now := db.now + 1 }

/-- `unlike_post` (`app/api/routes/engagements.py` lines 77-110): 404 if no
matching Like row exists, otherwise delete it (by primary key). -/
def unlike_post (db : DB) (u pid : Nat) : Except Err DB :=
  match scalarOneOrNone (likesByUserPost db u pid) with
  | .error e => .error e
  | .ok none => .error .notFound
  | .ok (some l) =>
    .ok { db with likes := db.likes.filter (fun x => x.id != l.id) }

/-- Count of Like rows for a post, as queried by `_build_post_response`
(`select(func.count(Like.id)).where(Like.post_id == post.id)`). -/
def likeCount (db : DB) (pid : Nat) : Nat :=
  (db.likes.filter (fun l => l.post_id == pid)).length

theorem scalarOneOrNone_nil {α : Type} :
    scalarOneOrNone ([] : List α) = .ok none := rfl

theorem scalarOneOrNone_single {α : Type} (a : α) :
    scalarOneOrNone [a] = .ok (some a) := rfl

/-- Helper: explicit success state of `like_post`. -/
theorem like_post_success (db : DB) (u pid : Nat) (p : PostRow)
    (hpost : postById db pid = [p]) (hnolike : likesByUserPost db u pid = []) :
    like_post db u pid = .ok { db with
      likes := db.likes ++ [(⟨db.nextLikeId, u, pid, db.now⟩ : LikeRow)],
      nextLikeId := db.nextLikeId + 1,
      now := db.now + 1 } := by
  unfold like_post
  rw [hpost, hnolike]
  rfl

/-- Helper: after `like_post` succeeds from a state with no Like for
(u, pid), the pair-query returns exactly the fresh row. -/
theorem likesByUserPost_after_like (db : DB) (u pid : Nat)
    (hnolike : likesByUserPost db u pid = []) :
    likesByUserPost { db with
      likes := db.likes ++ [(⟨db.nextLikeId, u, pid, db.now⟩ : LikeRow)],
      nextLikeId := db.nextLikeId + 1,
      now := db.now + 1 } u pid = [⟨db.nextLikeId, u, pid, db.now⟩] := by
  unfold likesByUserPost at *
  simp only [List.filter_append] at *
  rw [hnolike]
  simp

/-- Helper: a filter returning the empty list means every element fails the
predicate, so conjoining that predicate with anything still yields `[]`. -/
theorem filter_and_eq_nil {α : Type} (l : List α) (p q : α → Bool)
    (h : l.filter p = []) : l.filter (fun a => p a && q a) = [] := by
  rw [List.filter_eq_nil_iff] at h ⊢
  intro a ha
  simp [h a ha]

/-- C4: for an existing post `pid` and a user `u` with no Like row for
`(u, pid)`, calling `like_post` twice yields success then Conflict, and then
calling `unlike_post` twice yields success then NotFound. -/
theorem like_twice_then_unlike_twice (db : DB) (u pid : Nat) (p : PostRow)
    (hpost : postById db pid = [p]) (hnolike : likesByUserPost db u pid = []) :
    ∃ db1 db2,
      like_post db u pid = .ok db1 ∧
      like_post db1 u pid = .error .conflict ∧
      unlike_post db1 u pid = .ok db2 ∧
      unlike_post db2 u pid = .error .notFound := by
  refine ⟨{ db with
      likes := db.likes ++ [(⟨db.nextLikeId, u, pid, db.now⟩ : LikeRow)],
      nextLikeId := db.nextLikeId + 1, now := db.now + 1 },
    { db with
      likes := (db.likes ++ [(⟨db.nextLikeId, u, pid, db.now⟩ : LikeRow)]).filter
        (fun x => x.id != db.nextLikeId),
      nextLikeId := db.nextLikeId + 1, now := db.now + 1 },
    like_post_success db u pid p hpost hnolike, ?_, ?_, ?_⟩
  · have h1 : postById { db with
        likes := db.likes ++ [(⟨db.nextLikeId, u, pid, db.now⟩ : LikeRow)],
        nextLikeId := db.nextLikeId + 1, now := db.now + 1 } pid = [p] := hpost
    have h2 := likesByUserPost_after_like db u pid hnolike
    unfold like_post
    rw [h1, h2]
    rfl
  · have h2 := likesByUserPost_after_like db u pid hnolike
    unfold unlike_post
    rw [h2]
    rfl
  · have h3 : likesByUserPost { db with
        likes := (db.likes ++ [(⟨db.nextLikeId, u, pid, db.now⟩ : LikeRow)]).filter
          (fun x => x.id != db.nextLikeId),
        nextLikeId := db.nextLikeId + 1, now := db.now + 1 } u pid = [] := by
      unfold likesByUserPost
      rw [List.filter_filter, List.filter_append]
      unfold likesByUserPost at hnolike
      rw [filter_and_eq_nil _ _ _ hnolike]
      simp
    unfold unlike_post
    rw [h3]
    rfl

/-- C5: liking then unliking an existing post, from a state with no Like row
for `(u, pid)` and with fresh primary keys, restores the like table exactly;
in particular the Like-existence state for `(u, pid)` and the like count of
the post are what they were before. -/
theorem like_then_unlike_roundtrip (db : DB) (u pid : Nat) (p : PostRow)
    (hpost : postById db pid = [p]) (hnolike : likesByUserPost db u pid = [])
    (hfresh : ∀ l ∈ db.likes, l.id < db.nextLikeId) :
    ∃ db1 db2,
      like_post db u pid = .ok db1 ∧
      unlike_post db1 u pid = .ok db2 ∧
      db2.likes = db.likes ∧
      likesByUserPost db2 u pid = likesByUserPost db u pid ∧
      likeCount db2 pid = likeCount db pid := by
  have hrestore : (db.likes ++ [(⟨db.nextLikeId, u, pid, db.now⟩ : LikeRow)]).filter
      (fun x => x.id != db.nextLikeId) = db.likes := by
    rw [List.filter_append]
    have h1 : db.likes.filter (fun x => x.id != db.nextLikeId) = db.likes := by
      rw [List.filter_eq_self]
      intro a ha
      have h := hfresh a ha
      simp only [bne_iff_ne, ne_eq]
      omega
    rw [h1]
    simp
  refine ⟨{ db with
      likes := db.likes ++ [(⟨db.nextLikeId, u, pid, db.now⟩ : LikeRow)],
      nextLikeId := db.nextLikeId + 1, now := db.now + 1 },
    { db with
      likes := (db.likes ++ [(⟨db.nextLikeId, u, pid, db.now⟩ : LikeRow)]).filter
        (fun x => x.id != db.nextLikeId),
      nextLikeId := db.nextLikeId + 1, now := db.now + 1 },
    like_post_success db u pid p hpost hnolike, ?_, ?_, ?_, ?_⟩
  · unfold unlike_post
    rw [likesByUserPost_after_like db u pid hnolike]
    rfl
  · exact hrestore
  · exact congrArg
      (fun ls => ls.filter (fun l => l.user_id == u && l.post_id == pid)) hrestore
  · exact congrArg
      (fun ls => (ls.filter (fun l => l.post_id == pid)).length) hrestore

/-- Does row `d` have a parent key that lies in the id set `s`?  Used to
compute the rows a database-level `ON DELETE CASCADE` chain reaches. -/
def childOf {α : Type} (pk : α → Option Nat) (s : List Nat) (d : α) : Bool :=
  match pk d with
  | some pp => s.contains pp
  | none => false

/-- One saturation pass of the cascade: repeatedly move every row whose
parent key is already collected into the collected id set.  `fuel` bounds
the number of passes; `rows.length` passes always reach the fixpoint. -/
def collectIds {α : Type} (key : α → Nat) (pk : α → Option Nat) :
    Nat → List α → List Nat → List Nat
  | 0, _, acc => acc
  | fuel + 1, rest, acc =>
    if (rest.filter (childOf pk acc)).isEmpty then acc
    else collectIds key pk fuel (rest.filter (fun d => !childOf pk acc d))
      (acc ++ (rest.filter (childOf pk acc)).map key)

/-- All ids reached from `roots` by the `ON DELETE CASCADE` chain along the
self-referential foreign key `pk` over `rows`. -/
def closureIds {α : Type} (key : α → Nat) (pk : α → Option Nat)
    (rows : List α) (roots : List Nat) : List Nat :=
  collectIds key pk rows.length rows roots

/-- Specification-side view of the cascade: an id is reached when it is a
root or the key of a row whose parent key is reached. -/
inductive ReachedId {α : Type} (key : α → Nat) (pk : α → Option Nat)
    (rows : List α) (roots : List Nat) : Nat → Prop
  | base (i : Nat) (h : i ∈ roots) : ReachedId key pk rows roots i
  | step (d : α) (hd : d ∈ rows) (pp : Nat) (hp : pk d = some pp)
      (hrec : ReachedId key pk rows roots pp) : ReachedId key pk rows roots (key d)

theorem collectIds_succ_pos {α : Type} (key : α → Nat) (pk : α → Option Nat)
    (n : Nat) (rest : List α) (acc : List Nat)
    (hk : (rest.filter (childOf pk acc)).isEmpty = true) :
    collectIds key pk (n + 1) rest acc = acc := by
  unfold collectIds
  rw [if_pos hk]

theorem collectIds_succ_neg {α : Type} (key : α → Nat) (pk : α → Option Nat)
    (n : Nat) (rest : List α) (acc : List Nat)
    (hk : ¬ (rest.filter (childOf pk acc)).isEmpty = true) :
    collectIds key pk (n + 1) rest acc =
      collectIds key pk n (rest.filter (fun d => !childOf pk acc d))
        (acc ++ (rest.filter (childOf pk acc)).map key) := by
  conv_lhs => unfold collectIds
  rw [if_neg hk]

theorem collectIds_sub {α : Type} (key : α → Nat) (pk : α → Option Nat) :
    ∀ (fuel : Nat) (rest : List α) (acc : List Nat),
      ∀ i ∈ acc, i ∈ collectIds key pk fuel rest acc := by
  intro fuel
  induction fuel with
  | zero => intro rest acc i hi; exact hi
  | succ n ih =>
    intro rest acc i hi
    by_cases hk : (rest.filter (childOf pk acc)).isEmpty
    · rw [collectIds_succ_pos key pk n rest acc hk]
      exact hi
    · rw [collectIds_succ_neg key pk n rest acc hk]
      exact ih _ _ i (List.mem_append_left _ hi)

theorem collectIds_closed {α : Type} (key : α → Nat) (pk : α → Option Nat)
    (rows : List α) :
    ∀ (fuel : Nat) (rest : List α) (acc : List Nat),
      (∀ d ∈ rest, d ∈ rows) →
      (∀ d ∈ rows, d ∈ rest ∨ key d ∈ acc) →
      rest.length ≤ fuel →
      ∀ d ∈ rows, ∀ pp, pk d = some pp →
        pp ∈ collectIds key pk fuel rest acc →
        key d ∈ collectIds key pk fuel rest acc := by
  intro fuel
  induction fuel with
  | zero =>
    intro rest acc _ hcover hlen d hd pp _ _
    have hrest : rest = [] := List.eq_nil_of_length_eq_zero (Nat.le_zero.mp hlen)
    rcases hcover d hd with h | h
    · rw [hrest] at h; cases h
    · exact h
  | succ n ih =>
    intro rest acc hsub hcover hlen d hd pp hpp hmem
    by_cases hk : (rest.filter (childOf pk acc)).isEmpty
    · rw [collectIds_succ_pos key pk n rest acc hk] at hmem ⊢
      rcases hcover d hd with h | h
      · exfalso
        have hchild : childOf pk acc d = true := by
          unfold childOf
          rw [hpp]
          simpa using hmem
        have hdf : d ∈ rest.filter (childOf pk acc) := List.mem_filter.mpr ⟨h, hchild⟩
        rw [List.isEmpty_iff] at hk
        rw [hk] at hdf
        cases hdf
      · exact h
    · rw [collectIds_succ_neg key pk n rest acc hk] at hmem ⊢
      have hne : ∃ x ∈ rest, childOf pk acc x = true := by
        cases hfe : rest.filter (childOf pk acc) with
        | nil =>
          rw [List.isEmpty_iff] at hk
          exact absurd hfe hk
        | cons y ys =>
          have hy : y ∈ rest.filter (childOf pk acc) := by
            rw [hfe]; exact List.mem_cons_self _ _
          exact ⟨y, (List.mem_filter.mp hy).1, (List.mem_filter.mp hy).2⟩
      refine ih _ _ ?_ ?_ ?_ d hd pp hpp hmem
      · intro x hx
        exact hsub x (List.mem_filter.mp hx).1
      · intro x hx
        rcases hcover x hx with h | h
        · by_cases hc : childOf pk acc x
          · right
            refine List.mem_append_right _ ?_
            exact List.mem_map.mpr ⟨x, List.mem_filter.mpr ⟨h, hc⟩, rfl⟩
          · left
            exact List.mem_filter.mpr ⟨h, by simp [hc]⟩
        · right
          exact List.mem_append_left _ h
      · have hlt : (rest.filter (fun d => !childOf pk acc d)).length < rest.length := by
          rw [List.length_filter_lt_length_iff_exists]
          rcases hne with ⟨x, hx, hcx⟩
          exact ⟨x, hx, by simp [hcx]⟩
        omega

theorem collectIds_sound {α : Type} (key : α → Nat) (pk : α → Option Nat)
    (rows : List α) (roots : List Nat) :
    ∀ (fuel : Nat) (rest : List α) (acc : List Nat),
      (∀ d ∈ rest, d ∈ rows) →
      (∀ i ∈ acc, ReachedId key pk rows roots i) →
      ∀ i ∈ collectIds key pk fuel rest acc, ReachedId key pk rows roots i := by
  intro fuel
  induction fuel with
  | zero => intro rest acc _ hacc i hi; exact hacc i hi
  | succ n ih =>
    intro rest acc hsub hacc i hi
    by_cases hk : (rest.filter (childOf pk acc)).isEmpty
    · rw [collectIds_succ_pos key pk n rest acc hk] at hi
      exact hacc i hi
    · rw [collectIds_succ_neg key pk n rest acc hk] at hi
      refine ih _ _ ?_ ?_ i hi
      · intro x hx
        exact hsub x (List.mem_filter.mp hx).1
      · intro x hx
        rcases List.mem_append.mp hx with h | h
        · exact hacc x h
        · rcases List.mem_map.mp h with ⟨d, hd, rfl⟩
          have hd1 := List.mem_filter.mp hd
          have hchild := hd1.2
          unfold childOf at hchild
          rcases hpk : pk d with _ | pp
          · rw [hpk] at hchild; cases hchild
          · rw [hpk] at hchild
            have hppmem : pp ∈ acc := by
              simpa using hchild
            exact ReachedId.step d (hsub d hd1.1) pp hpk (hacc pp hppmem)

/-- The computed cascade set is exactly the specification-side reached set. -/
theorem mem_closureIds_iff {α : Type} (key : α → Nat) (pk : α → Option Nat)
    (rows : List α) (roots : List Nat) (i : Nat) :
    i ∈ closureIds key pk rows roots ↔ ReachedId key pk rows roots i := by
  constructor
  · intro h
    exact collectIds_sound key pk rows roots rows.length rows roots
      (fun d hd => hd) (fun j hj => ReachedId.base j hj) i h
  · intro h
    induction h with
    | base j hj =>
      exact collectIds_sub key pk rows.length rows roots j hj
    | step d hd pp hpk _ ihpp =>
      exact collectIds_closed key pk rows rows.length rows roots
        (fun x hx => hx) (fun x hx => Or.inl hx) (Nat.le_refl _) d hd pp hpk ihpp

theorem closureIds_root {α : Type} (key : α → Nat) (pk : α → Option Nat)
    (rows : List α) (roots : List Nat) (i : Nat) (h : i ∈ roots) :
    i ∈ closureIds key pk rows roots :=
  collectIds_sub key pk rows.length rows roots i h

theorem closureIds_closed {α : Type} (key : α → Nat) (pk : α → Option Nat)
    (rows : List α) (roots : List Nat) (d : α) (hd : d ∈ rows) (pp : Nat)
    (hpk : pk d = some pp) (hpp : pp ∈ closureIds key pk rows roots) :
    key d ∈ closureIds key pk rows roots :=
  (mem_closureIds_iff key pk rows roots (key d)).mpr
    (ReachedId.step d hd pp hpk ((mem_closureIds_iff key pk rows roots pp).mp hpp))

/-- The set of post ids removed when post `root` is deleted: `root` together
with every post reached through the `posts.original_post_id` foreign key,
declared `ondelete="CASCADE"` in `app/models/models.py` (line 78), so the
store chases chains of mirrored posts transitively. -/
def postCascadeIds (posts : List PostRow) (root : Nat) : List Nat :=
  closureIds (fun q => q.id) (fun q => q.original_post_id) posts [root]

/-- Effect on the store of `db.delete(post)` for the post with id `root`:
the post rows of the cascade set disappear, and the store-level referential
actions (`ondelete="CASCADE"` on `likes.post_id`, `retweets.original_post_id`,
`comments.post_id` and `comments.parent_comment_id`) remove the likes,
retweets and comment subtrees hanging off any removed post. -/
def deletePostCascade (db : DB) (root : Nat) : DB :=
  { db with
    posts := db.posts.filter (fun q => !(postCascadeIds db.posts root).contains q.id),
    likes := db.likes.filter
      (fun l => !(postCascadeIds db.posts root).contains l.post_id),
    retweets := db.retweets.filter
      (fun r => !(postCascadeIds db.posts root).contains r.original_post_id),
    comments := db.comments.filter (fun c =>
      !(closureIds (fun d => d.id) (fun d => d.parent_comment_id) db.comments
        ((db.comments.filter
          (fun d => (postCascadeIds db.posts root).contains d.post_id)).map
            (fun d => d.id))).contains c.id) }

/-- `create_post` (`app/api/routes/posts.py` lines 17-41): insert one Post
row owned by the caller with `is_retweet=False`; content validation happens
at the request boundary and the operation cannot fail. -/
def create_post (db : DB) (u : Nat) (content : String) : DB :=
  { db with
    posts := db.posts ++
      [(⟨db.nextPostId, content, none, u, false, none, db.now, db.now⟩ : PostRow)],
    nextPostId := db.nextPostId + 1,
    now := db.now + 1 }

/-- `delete_post` (`app/api/routes/posts.py` lines 137-171): 404 if the post
is absent, 403 if the caller is not the author, otherwise delete the post;
the store cascades to its likes, retweets, comments and (through the
`posts.original_post_id` foreign key) mirrored retweet posts. -/
def delete_post (db : DB) (u pid : Nat) : Except Err DB :=
  match scalarOneOrNone (postById db pid) with
  | .error e => .error e
  | .ok none => .error .notFound
  | .ok (some post) =>
    if post.user_id != u then .error .permissionDenied
    else .ok (deletePostCascade db pid)

/-- `retweet_post` (`app/api/routes/engagements.py` lines 152-225): 404 if
the post is absent, 400 if the caller authored it, 400 if a Retweet for
(user, post) already exists, otherwise insert — in one transaction — one
Retweet row and one mirrored Post row flagged `is_retweet=True` that copies
the original's content. -/
def retweet_post (db : DB) (u pid : Nat) : Except Err DB :=
  match scalarOneOrNone (postById db pid) with
  | .error e => .error e
  | .ok none => .error .notFound
  | .ok (some post) =>
    if post.user_id == u then .error .conflict
    else
      match scalarOneOrNone (retweetsByUserPost db u pid) with
      | .error e => .error e
      | .ok (some _) => .error .conflict
      | .ok none =>
        .ok { db with
          retweets := db.retweets ++
            [(⟨db.nextRetweetId, u, pid, db.now⟩ : RetweetRow)],
          posts := db.posts ++
            [(⟨db.nextPostId, post.content, none, u, true, some pid,
               db.now, db.now⟩ : PostRow)],
          nextRetweetId := db.nextRetweetId + 1,
          nextPostId := db.nextPostId + 1,
          now := db.now + 1 }

/-- The mirrored-post query of `unretweet_post`:
`select(Post).where(Post.user_id == u, Post.original_post_id == pid,
Post.is_retweet == True)`. -/
def mirrorPostsByUserPost (db : DB) (u pid : Nat) : List PostRow :=
  db.posts.filter
    (fun q => q.user_id == u && q.original_post_id == some pid && q.is_retweet)

/-- `unretweet_post` (`app/api/routes/engagements.py` lines 228-274): 404 if
no Retweet row exists for (user, post); otherwise delete the Retweet row
and, when a mirrored Post row matching (owner=u, original_post_id=pid,
is_retweet=True) is found, delete that post too (with its own store-level
cascades). -/
def unretweet_post (db : DB) (u pid : Nat) : Except Err DB :=
  match scalarOneOrNone (retweetsByUserPost db u pid) with
  | .error e => .error e
  | .ok none => .error .notFound
  | .ok (some rt) =>
    match scalarOneOrNone (mirrorPostsByUserPost db u pid) with
    | .error e => .error e
    | .ok none =>
      .ok { db with retweets := db.retweets.filter (fun x => x.id != rt.id) }
    | .ok (some m) =>
      .ok (deletePostCascade
        { db with retweets := db.retweets.filter (fun x => x.id != rt.id) } m.id)

theorem contains_iff_mem (l : List Nat) (a : Nat) : l.contains a = true ↔ a ∈ l := by
  simp

/-- C1: `retweet_post` fails NotFound when the post is absent; fails Conflict
when the caller authored the post (regardless of other rows); fails Conflict
when a Retweet row for (user, post) already exists; otherwise appends exactly
one Retweet row for (user, post) and exactly one Post row owned by the caller
with `is_retweet=true`, `original_post_id = pid` and the original's content. -/
theorem retweet_post_spec (db : DB) (u pid : Nat) :
    (postById db pid = [] → retweet_post db u pid = .error .notFound) ∧
    (∀ p, postById db pid = [p] → p.user_id = u →
      retweet_post db u pid = .error .conflict) ∧
    (∀ p r, postById db pid = [p] → p.user_id ≠ u →
      retweetsByUserPost db u pid = [r] →
      retweet_post db u pid = .error .conflict) ∧
    (∀ p, postById db pid = [p] → p.user_id ≠ u →
      retweetsByUserPost db u pid = [] →
      retweet_post db u pid = .ok { db with
        retweets := db.retweets ++
          [(⟨db.nextRetweetId, u, pid, db.now⟩ : RetweetRow)],
        posts := db.posts ++
          [(⟨db.nextPostId, p.content, none, u, true, some pid,
             db.now, db.now⟩ : PostRow)],
        nextRetweetId := db.nextRetweetId + 1,
        nextPostId := db.nextPostId + 1,
        now := db.now + 1 }) := by
  refine ⟨?_, ?_, ?_, ?_⟩
  · intro h
    unfold retweet_post
    rw [h]
    rfl
  · intro p hp hu
    unfold retweet_post
    rw [hp, scalarOneOrNone_single]
    have hb : (p.user_id == u) = true := by simp [hu]
    simp [hb]
  · intro p r hp hu hr
    unfold retweet_post
    rw [hp, scalarOneOrNone_single]
    have hb : (p.user_id == u) = false := by simp [hu]
    simp only [hb]
    rw [hr, scalarOneOrNone_single]
    simp
  · intro p hp hu hr
    unfold retweet_post
    rw [hp, scalarOneOrNone_single]
    have hb : (p.user_id == u) = false := by simp [hu]
    simp only [hb]
    rw [hr, scalarOneOrNone_nil]
    simp

def p1row : PostRow := ⟨1, "hello", none, 1, false, none, 0, 0⟩

/-- A store holding one original post by user 1. -/
def dbOnePost : DB := ⟨[p1row], [], [], [], 2, 1, 1, 1, 1⟩

def mirrorRow : PostRow := ⟨2, "hello", none, 2, true, some 1, 1, 1⟩

/-- The store after user 2 retweets post 1 in `dbOnePost`. -/
def dbRetweeted : DB := ⟨[p1row, mirrorRow], [], [⟨1, 2, 1, 1⟩], [], 3, 1, 2, 1, 2⟩

/-- The store after user 1 then deletes post 1 in `dbRetweeted`. -/
def dbCleared : DB := ⟨[], [], [], [], 3, 1, 2, 1, 2⟩

theorem retweet_post_spec_witness :
    postById dbOnePost 1 = [p1row] ∧ p1row.user_id ≠ 2 ∧
    retweetsByUserPost dbOnePost 2 1 = [] ∧
    retweet_post dbOnePost 2 1 = .ok dbRetweeted :=
  ⟨rfl, by decide, rfl,
    (retweet_post_spec dbOnePost 2 1).2.2.2 p1row rfl (by decide) rfl⟩

theorem like_twice_then_unlike_twice_witness :
    postById dbOnePost 1 = [p1row] ∧ likesByUserPost dbOnePost 2 1 = [] ∧
    ∃ db1 db2,
      like_post dbOnePost 2 1 = .ok db1 ∧
      like_post db1 2 1 = .error .conflict ∧
      unlike_post db1 2 1 = .ok db2 ∧
      unlike_post db2 2 1 = .error .notFound :=
  ⟨rfl, rfl, like_twice_then_unlike_twice dbOnePost 2 1 p1row rfl rfl⟩

theorem like_then_unlike_roundtrip_witness :
    postById dbOnePost 1 = [p1row] ∧ likesByUserPost dbOnePost 2 1 = [] ∧
    (∀ l ∈ dbOnePost.likes, l.id < dbOnePost.nextLikeId) ∧
    ∃ db1 db2,
      like_post dbOnePost 2 1 = .ok db1 ∧
      unlike_post db1 2 1 = .ok db2 ∧
      db2.likes = dbOnePost.likes ∧
      likesByUserPost db2 2 1 = likesByUserPost dbOnePost 2 1 ∧
      likeCount db2 1 = likeCount dbOnePost 1 :=
  ⟨rfl, rfl, by decide,
    like_then_unlike_roundtrip dbOnePost 2 1 p1row rfl rfl (by decide)⟩

/-- C3 counterexample: user 2 retweets post 1, then user 1 deletes post 1.
The Retweet rows for post 1 are removed, but — contrary to the claim — the
mirrored `is_retweet=true` Post row does not survive: the
`ondelete="CASCADE"` foreign key on `posts.original_post_id` removes it. -/
theorem delete_post_orphan_counterexample :
    retweet_post dbOnePost 2 1 = .ok dbRetweeted ∧
    (∃ m ∈ dbRetweeted.posts, m.is_retweet = true ∧ m.original_post_id = some 1) ∧
    delete_post dbRetweeted 1 1 = .ok dbCleared ∧
    (∀ r ∈ dbCleared.retweets, r.original_post_id ≠ 1) ∧
    ¬ ∃ m ∈ dbCleared.posts, m.is_retweet = true ∧ m.original_post_id = some 1 := by
  refine ⟨rfl, ?_, rfl, ?_, ?_⟩
  · exact ⟨mirrorRow, by decide, by decide, by decide⟩
  · intro r hr
    cases hr
  · intro ⟨m, hm, _⟩
    cases hm

/-- C3 amended: deleting an existing post `pid` by its author removes every
Retweet row with `original_post_id = pid` and also removes every mirrored
Post row referencing `pid` (and the post itself) — the mirrors are
cascade-deleted, not orphaned. -/
theorem delete_post_removes_retweets_and_mirrors (db : DB) (u pid : Nat)
    (p : PostRow) (hp : postById db pid = [p]) (hu : p.user_id = u) :
    ∃ db', delete_post db u pid = .ok db' ∧
      (∀ r ∈ db'.retweets, r.original_post_id ≠ pid) ∧
      (∀ q ∈ db'.posts, q.original_post_id ≠ some pid) ∧
      (∀ q ∈ db'.posts, q.id ≠ pid) := by
  have hroot : pid ∈ postCascadeIds db.posts pid :=
    closureIds_root _ _ db.posts [pid] pid (List.mem_singleton.mpr rfl)
  refine ⟨deletePostCascade db pid, ?_, ?_, ?_, ?_⟩
  · unfold delete_post
    rw [hp, scalarOneOrNone_single]
    have hb : (p.user_id != u) = false := by simp [hu]
    simp [hb]
  · intro r hr hto
    have h1 := List.mem_filter.mp hr
    have h2 := h1.2
    rw [hto] at h2
    rw [(contains_iff_mem _ _).mpr hroot] at h2
    simp at h2
  · intro q hq hto
    have h1 := List.mem_filter.mp hq
    have hcl : q.id ∈ postCascadeIds db.posts pid :=
      closureIds_closed _ _ db.posts [pid] q h1.1 pid hto hroot
    have h2 := h1.2
    rw [(contains_iff_mem _ _).mpr hcl] at h2
    simp at h2
  · intro q hq hto
    have h1 := List.mem_filter.mp hq
    have h2 := h1.2
    rw [hto] at h2
    rw [(contains_iff_mem _ _).mpr hroot] at h2
    simp at h2

theorem delete_post_removes_retweets_and_mirrors_witness :
    postById dbRetweeted 1 = [p1row] ∧ p1row.user_id = 1 ∧
    ∃ db', delete_post dbRetweeted 1 1 = .ok db' ∧
      (∀ r ∈ db'.retweets, r.original_post_id ≠ 1) ∧
      (∀ q ∈ db'.posts, q.original_post_id ≠ some 1) ∧
      (∀ q ∈ db'.posts, q.id ≠ 1) :=
  ⟨rfl, rfl, delete_post_removes_retweets_and_mirrors dbRetweeted 1 1 p1row rfl rfl⟩

/-- Python truthiness of the optional `parent_comment_id`
(`if comment_data.parent_comment_id:`): `None` and `0` are falsy.  The
request boundary (`CommentCreate`, pydantic `gt=0`) rejects `0`. -/
def optTruthy (o : Option Nat) : Bool :=
  match o with
  | none => false
  | some n => n != 0

/-- `create_comment` (`app/api/routes/comments.py` lines 17-75): 404 if the
post is absent; when a (truthy) parent id is supplied, 404 if the parent
comment is absent and 400 if the parent belongs to a different post;
otherwise insert one Comment row carrying the given parent id. -/
def create_comment (db : DB) (u : Nat) (content : String) (pid : Nat)
    (parent : Option Nat) : Except Err DB :=
  match scalarOneOrNone (postById db pid) with
  | .error e => .error e
  | .ok none => .error .notFound
  | .ok (some _) =>
    match parent with
    | some pcid =>
      if pcid != 0 then
        match scalarOneOrNone (commentById db pcid) with
        | .error e => .error e
        | .ok none => .error .notFound
        | .ok (some pc) =>
          if pc.post_id != pid then .error .invalidArgument
          else
            .ok { db with
              comments := db.comments ++
                [(⟨db.nextCommentId, content, u, pid, parent, db.now, db.now⟩ :
                  CommentRow)],
              nextCommentId := db.nextCommentId + 1,
              now := db.now + 1 }
      else
        .ok { db with
          comments := db.comments ++
            [(⟨db.nextCommentId, content, u, pid, parent, db.now, db.now⟩ :
              CommentRow)],
          nextCommentId := db.nextCommentId + 1,
          now := db.now + 1 }
    | none =>
      .ok { db with
        comments := db.comments ++
          [(⟨db.nextCommentId, content, u, pid, parent, db.now, db.now⟩ :
            CommentRow)],
        nextCommentId := db.nextCommentId + 1,
        now := db.now + 1 }

/-- `update_comment` (`app/api/routes/comments.py` lines 245-281): 404 if
the comment is absent, 403 if the requester is not the author, otherwise
replace the content; the store refreshes `updated_at` (`onupdate=func.now()`). -/
def update_comment (db : DB) (u cid : Nat) (content : String) : Except Err DB :=
  match scalarOneOrNone (commentById db cid) with
  | .error e => .error e
  | .ok none => .error .notFound
  | .ok (some c) =>
    if c.user_id != u then .error .permissionDenied
    else
      .ok { db with
        comments := db.comments.map (fun d =>
          if d.id == cid then
            { d with content := content, updated_at := db.now } else d),
        now := db.now + 1 }

/-- The comment ids removed when comment `cid` is deleted: `cid` plus the
ids reached through the `comments.parent_comment_id` foreign key, declared
`ondelete="CASCADE"` (and mirrored by the ORM `replies` cascade), i.e. the
full reply subtree. -/
def commentCascadeIds (comments : List CommentRow) (cid : Nat) : List Nat :=
  closureIds (fun d => d.id) (fun d => d.parent_comment_id) comments [cid]

/-- `delete_comment` (`app/api/routes/comments.py` lines 284-322): 404 if
the comment is absent, 403 if the requester is not the author, otherwise
delete the comment; the cascade removes its entire reply subtree. -/
def delete_comment (db : DB) (u cid : Nat) : Except Err DB :=
  match scalarOneOrNone (commentById db cid) with
  | .error e => .error e
  | .ok none => .error .notFound
  | .ok (some c) =>
    if c.user_id != u then .error .permissionDenied
    else
      .ok { db with
        comments := db.comments.filter
          (fun d => !(commentCascadeIds db.comments cid).contains d.id) }

/-- The state-changing operations exposed by the route files under
`app/api/routes/` (reads do not change the store). -/
inductive Op where
  | createPost (u : Nat) (content : String)
  | deletePost (u pid : Nat)
  | like (u pid : Nat)
  | unlike (u pid : Nat)
  | retweet (u pid : Nat)
  | unretweet (u pid : Nat)
  | createComment (u : Nat) (content : String) (pid : Nat) (parent : Option Nat)
  | updateComment (u cid : Nat) (content : String)
  | deleteComment (u cid : Nat)

def applyOp (db : DB) : Op → Except Err DB
  | .createPost u content => .ok (create_post db u content)
  | .deletePost u pid => delete_post db u pid
  | .like u pid => like_post db u pid
  | .unlike u pid => unlike_post db u pid
  | .retweet u pid => retweet_post db u pid
  | .unretweet u pid => unretweet_post db u pid
  | .createComment u content pid parent => create_comment db u content pid parent
  | .updateComment u cid content => update_comment db u cid content
  | .deleteComment u cid => delete_comment db u cid

/-- One request: on an error outcome the transaction rolls back and the
store is unchanged. -/
def step (db : DB) (op : Op) : DB :=
  match applyOp db op with
  | .ok db' => db'
  | .error _ => db

/-- The states reachable from the empty store by the operations of this
system. -/
inductive Reachable : DB → Prop
  | empty : Reachable DB.empty
  | step (db : DB) (op : Op) (h : Reachable db) : Reachable (step db op)

/-- C2's invariant: every `is_retweet=true` Post row has a Retweet row with
the same (user_id, original_post_id) pair. -/
def MirrorInv (db : DB) : Prop :=
  ∀ q ∈ db.posts, q.is_retweet = true →
    ∃ r ∈ db.retweets, r.user_id = q.user_id ∧
      some r.original_post_id = q.original_post_id

/-- Bookkeeping invariant used to strengthen the induction: retweet primary
keys are distinct and below the next serial value. -/
def RetweetIdsWF (db : DB) : Prop :=
  (db.retweets.map (fun r => r.id)).Nodup ∧
  ∀ r ∈ db.retweets, r.id < db.nextRetweetId

def Inv (db : DB) : Prop := RetweetIdsWF db ∧ MirrorInv db

theorem scalarOneOrNone_eq_some {α : Type} (l : List α) (a : α)
    (h : scalarOneOrNone l = .ok (some a)) : l = [a] := by
  match l with
  | [] => simp [scalarOneOrNone] at h
  | [x] =>
    simp [scalarOneOrNone] at h
    rw [h]
  | x :: y :: rest => simp [scalarOneOrNone] at h

theorem scalarOneOrNone_eq_none {α : Type} (l : List α)
    (h : scalarOneOrNone l = .ok none) : l = [] := by
  match l with
  | [] => rfl
  | [x] => simp [scalarOneOrNone] at h
  | x :: y :: rest => simp [scalarOneOrNone] at h

/-- Frame fact: `like_post` never touches posts, retweets or the retweet
serial. -/
theorem like_post_ok_frame (db : DB) (u pid : Nat) (db' : DB)
    (h : like_post db u pid = .ok db') :
    db'.posts = db.posts ∧ db'.retweets = db.retweets ∧
      db'.nextRetweetId = db.nextRetweetId := by
  unfold like_post at h
  cases hq1 : scalarOneOrNone (postById db pid) with
  | error e => simp only [hq1] at h; cases h
  | ok o1 =>
    cases o1 with
    | none => simp only [hq1] at h; cases h
    | some p =>
      simp only [hq1] at h
      cases hq2 : scalarOneOrNone (likesByUserPost db u pid) with
      | error e => simp only [hq2] at h; cases h
      | ok o2 =>
        cases o2 with
        | some l => simp only [hq2] at h; cases h
        | none =>
          simp only [hq2] at h
          cases h; exact ⟨rfl, rfl, rfl⟩

theorem unlike_post_ok_frame (db : DB) (u pid : Nat) (db' : DB)
    (h : unlike_post db u pid = .ok db') :
    db'.posts = db.posts ∧ db'.retweets = db.retweets ∧
      db'.nextRetweetId = db.nextRetweetId := by
  unfold unlike_post at h
  cases hq1 : scalarOneOrNone (likesByUserPost db u pid) with
  | error e => simp only [hq1] at h; cases h
  | ok o1 =>
    cases o1 with
    | none => simp only [hq1] at h; cases h
    | some l =>
      simp only [hq1] at h
      cases h; exact ⟨rfl, rfl, rfl⟩

theorem create_comment_ok_frame (db : DB) (u : Nat) (content : String)
    (pid : Nat) (parent : Option Nat) (db' : DB)
    (h : create_comment db u content pid parent = .ok db') :
    db'.posts = db.posts ∧ db'.retweets = db.retweets ∧
      db'.nextRetweetId = db.nextRetweetId := by
  unfold create_comment at h
  cases hq1 : scalarOneOrNone (postById db pid) with
  | error e => simp only [hq1] at h; cases h
  | ok o1 =>
    cases o1 with
    | none => simp only [hq1] at h; cases h
    | some p =>
      cases parent with
      | none =>
        simp only [hq1] at h
        cases h; exact ⟨rfl, rfl, rfl⟩
      | some pcid =>
        simp only [hq1] at h
        cases hb : (pcid != 0) with
        | false =>
          rw [hb, if_neg (by decide)] at h
          cases h; exact ⟨rfl, rfl, rfl⟩
        | true =>
          rw [hb, if_pos rfl] at h
          cases hq2 : scalarOneOrNone (commentById db pcid) with
          | error e => simp only [hq2] at h; cases h
          | ok o2 =>
            cases o2 with
            | none => simp only [hq2] at h; cases h
            | some pc =>
              simp only [hq2] at h
              cases hb2 : (pc.post_id != pid) with
              | true => rw [hb2, if_pos rfl] at h; cases h
              | false =>
                rw [hb2, if_neg (by decide)] at h
                cases h; exact ⟨rfl, rfl, rfl⟩

theorem update_comment_ok_frame (db : DB) (u cid : Nat) (content : String)
    (db' : DB) (h : update_comment db u cid content = .ok db') :
    db'.posts = db.posts ∧ db'.retweets = db.retweets ∧
      db'.nextRetweetId = db.nextRetweetId := by
  unfold update_comment at h
  cases hq1 : scalarOneOrNone (commentById db cid) with
  | error e => simp only [hq1] at h; cases h
  | ok o1 =>
    cases o1 with
    | none => simp only [hq1] at h; cases h
    | some c =>
      simp only [hq1] at h
      cases hb : (c.user_id != u) with
      | true => rw [hb, if_pos rfl] at h; cases h
      | false =>
        rw [hb, if_neg (by decide)] at h
        cases h; exact ⟨rfl, rfl, rfl⟩

theorem delete_comment_ok_frame (db : DB) (u cid : Nat) (db' : DB)
    (h : delete_comment db u cid = .ok db') :
    db'.posts = db.posts ∧ db'.retweets = db.retweets ∧
      db'.nextRetweetId = db.nextRetweetId := by
  unfold delete_comment at h
  cases hq1 : scalarOneOrNone (commentById db cid) with
  | error e => simp only [hq1] at h; cases h
  | ok o1 =>
    cases o1 with
    | none => simp only [hq1] at h; cases h
    | some c =>
      simp only [hq1] at h
      cases hb : (c.user_id != u) with
      | true => rw [hb, if_pos rfl] at h; cases h
      | false =>
        rw [hb, if_neg (by decide)] at h
        cases h; exact ⟨rfl, rfl, rfl⟩

theorem delete_post_ok_shape (db : DB) (u pid : Nat) (db' : DB)
    (h : delete_post db u pid = .ok db') : db' = deletePostCascade db pid := by
  unfold delete_post at h
  cases hq1 : scalarOneOrNone (postById db pid) with
  | error e => simp only [hq1] at h; cases h
  | ok o1 =>
    cases o1 with
    | none => simp only [hq1] at h; cases h
    | some p =>
      simp only [hq1] at h
      cases hb : (p.user_id != u) with
      | true => rw [hb, if_pos rfl] at h; cases h
      | false =>
        rw [hb, if_neg (by decide)] at h
        cases h; rfl

theorem retweet_post_ok_shape (db : DB) (u pid : Nat) (db' : DB)
    (h : retweet_post db u pid = .ok db') :
    ∃ c : String, db' = { db with
      retweets := db.retweets ++
        [(⟨db.nextRetweetId, u, pid, db.now⟩ : RetweetRow)],
      posts := db.posts ++
        [(⟨db.nextPostId, c, none, u, true, some pid, db.now, db.now⟩ : PostRow)],
      nextRetweetId := db.nextRetweetId + 1,
      nextPostId := db.nextPostId + 1,
      now := db.now + 1 } := by
  unfold retweet_post at h
  cases hq1 : scalarOneOrNone (postById db pid) with
  | error e => simp only [hq1] at h; cases h
  | ok o1 =>
    cases o1 with
    | none => simp only [hq1] at h; cases h
    | some p =>
      simp only [hq1] at h
      cases hb : (p.user_id == u) with
      | true => rw [hb, if_pos rfl] at h; cases h
      | false =>
        rw [hb, if_neg (by decide)] at h
        cases hq2 : scalarOneOrNone (retweetsByUserPost db u pid) with
        | error e => simp only [hq2] at h; cases h
        | ok o2 =>
          cases o2 with
          | some r => simp only [hq2] at h; cases h
          | none =>
            simp only [hq2] at h
            cases h; exact ⟨p.content, rfl⟩

theorem unretweet_post_ok_shape (db : DB) (u pid : Nat) (db' : DB)
    (h : unretweet_post db u pid = .ok db') :
    ∃ rt, scalarOneOrNone (retweetsByUserPost db u pid) = .ok (some rt) ∧
      ((scalarOneOrNone (mirrorPostsByUserPost db u pid) = .ok none ∧
        db' = { db with
          retweets := db.retweets.filter (fun x => x.id != rt.id) }) ∨
       (∃ m, scalarOneOrNone (mirrorPostsByUserPost db u pid) = .ok (some m) ∧
        db' = deletePostCascade
          { db with retweets := db.retweets.filter (fun x => x.id != rt.id) }
          m.id)) := by
  unfold unretweet_post at h
  cases hq1 : scalarOneOrNone (retweetsByUserPost db u pid) with
  | error e => simp only [hq1] at h; cases h
  | ok o1 =>
    cases o1 with
    | none => simp only [hq1] at h; cases h
    | some rt =>
      simp only [hq1] at h
      cases hq2 : scalarOneOrNone (mirrorPostsByUserPost db u pid) with
      | error e => simp only [hq2] at h; cases h
      | ok o2 =>
        cases o2 with
        | none =>
          simp only [hq2] at h
          cases h
          exact ⟨rt, rfl, Or.inl ⟨rfl, rfl⟩⟩
        | some m =>
          simp only [hq2] at h
          cases h
          exact ⟨rt, rfl, Or.inr ⟨m, rfl, rfl⟩⟩

/-- The post-delete cascade preserves the mirror invariant: whenever a
mirror survives, the original it points at was not deleted, so its Retweet
row was not swept either. -/
theorem mirrorInv_deletePostCascade (db : DB) (root : Nat)
    (h : MirrorInv db) : MirrorInv (deletePostCascade db root) := by
  intro q hq hrt
  have h1 := List.mem_filter.mp hq
  rcases h q h1.1 hrt with ⟨r, hr, hru, hro⟩
  by_cases hc : r.original_post_id ∈ postCascadeIds db.posts root
  · exfalso
    have hcl : q.id ∈ postCascadeIds db.posts root :=
      closureIds_closed _ _ db.posts [root] q h1.1 r.original_post_id hro.symm hc
    have h2 := h1.2
    rw [(contains_iff_mem _ _).mpr hcl] at h2
    simp at h2
  · refine ⟨r, List.mem_filter.mpr ⟨hr, ?_⟩, hru, hro⟩
    have hcf : (postCascadeIds db.posts root).contains r.original_post_id = false := by
      rcases hb : (postCascadeIds db.posts root).contains r.original_post_id
      · rfl
      · exact absurd ((contains_iff_mem _ _).mp hb) hc
    rw [hcf]
    rfl

theorem inv_empty : Inv DB.empty :=
  ⟨⟨List.nodup_nil, fun r hr => absurd hr (List.not_mem_nil r)⟩,
   fun q hq => absurd hq (List.not_mem_nil q)⟩

theorem inv_of_frame (db db' : DB) (hp : db'.posts = db.posts)
    (hr : db'.retweets = db.retweets) (hn : db'.nextRetweetId = db.nextRetweetId)
    (h : Inv db) : Inv db' := by
  unfold Inv RetweetIdsWF MirrorInv at *
  rw [hp, hr, hn]
  exact h

theorem inv_step (db : DB) (op : Op) (h : Inv db) : Inv (step db op) := by
  have hstep : ∀ (r : Except Err DB), (∀ db', r = .ok db' → Inv db') →
      Inv (match r with | .ok db' => db' | .error _ => db) := by
    intro r hr
    cases r with
    | ok db' => exact hr db' rfl
    | error e => exact h
  cases op with
  | createPost u content =>
    show Inv (create_post db u content)
    constructor
    · exact ⟨h.1.1, fun r hr => h.1.2 r hr⟩
    · intro q hq hrt
      rcases List.mem_append.mp hq with h1 | h1
      · exact h.2 q h1 hrt
      · rw [List.mem_singleton.mp h1] at hrt
        simp at hrt
  | deletePost u pid =>
    refine hstep _ ?_
    intro db' hok
    rw [delete_post_ok_shape db u pid db' hok]
    refine ⟨⟨?_, ?_⟩, mirrorInv_deletePostCascade db pid h.2⟩
    · exact List.Nodup.sublist (List.Sublist.map _ (List.filter_sublist _)) h.1.1
    · intro r hr
      exact h.1.2 r (List.mem_filter.mp hr).1
  | like u pid =>
    refine hstep _ ?_
    intro db' hok
    have hf := like_post_ok_frame db u pid db' hok
    exact inv_of_frame db db' hf.1 hf.2.1 hf.2.2 h
  | unlike u pid =>
    refine hstep _ ?_
    intro db' hok
    have hf := unlike_post_ok_frame db u pid db' hok
    exact inv_of_frame db db' hf.1 hf.2.1 hf.2.2 h
  | createComment u content pid parent =>
    refine hstep _ ?_
    intro db' hok
    have hf := create_comment_ok_frame db u content pid parent db' hok
    exact inv_of_frame db db' hf.1 hf.2.1 hf.2.2 h
  | updateComment u cid content =>
    refine hstep _ ?_
    intro db' hok
    have hf := update_comment_ok_frame db u cid content db' hok
    exact inv_of_frame db db' hf.1 hf.2.1 hf.2.2 h
  | deleteComment u cid =>
    refine hstep _ ?_
    intro db' hok
    have hf := delete_comment_ok_frame db u cid db' hok
    exact inv_of_frame db db' hf.1 hf.2.1 hf.2.2 h
  | retweet u pid =>
    refine hstep _ ?_
    intro db' hok
    obtain ⟨c, rfl⟩ := retweet_post_ok_shape db u pid db' hok
    constructor
    · constructor
      · show ((db.retweets ++
          [(⟨db.nextRetweetId, u, pid, db.now⟩ : RetweetRow)]).map
            (fun r => r.id)).Nodup
        rw [List.map_append, List.nodup_append]
        refine ⟨h.1.1, List.nodup_singleton _, ?_⟩
        intro a ha hb
        rcases List.mem_map.mp ha with ⟨r, hrm, rfl⟩
        have hlt := h.1.2 r hrm
        have hbb : r.id = db.nextRetweetId := by
          simpa using hb
        omega
      · intro r hr
        rcases List.mem_append.mp hr with h1 | h1
        · have := h.1.2 r h1
          show r.id < db.nextRetweetId + 1
          omega
        · rw [List.mem_singleton.mp h1]
          exact Nat.lt_succ_self _
    · intro q hq hrt
      rcases List.mem_append.mp hq with h1 | h1
      · rcases h.2 q h1 hrt with ⟨r, hr, hru, hro⟩
        exact ⟨r, List.mem_append_left _ hr, hru, hro⟩
      · rw [List.mem_singleton.mp h1]
        exact ⟨⟨db.nextRetweetId, u, pid, db.now⟩,
          List.mem_append_right _ (List.mem_singleton.mpr rfl), rfl, rfl⟩
  | unretweet u pid =>
    refine hstep _ ?_
    intro db' hok
    obtain ⟨rt, hq1, hcase⟩ := unretweet_post_ok_shape db u pid db' hok
    have hfl : retweetsByUserPost db u pid = [rt] :=
      scalarOneOrNone_eq_some _ _ hq1
    have hrtq : rt ∈ retweetsByUserPost db u pid := by
      rw [hfl]; exact List.mem_singleton.mpr rfl
    have hrtm := List.mem_filter.mp hrtq
    have hrtu : rt.user_id = u ∧ rt.original_post_id = pid := by
      have := hrtm.2
      simp only [Bool.and_eq_true, beq_iff_eq] at this
      exact this
    rcases hcase with ⟨hq2, rfl⟩ | ⟨m, hq2, rfl⟩
    · constructor
      · constructor
        · exact List.Nodup.sublist (List.Sublist.map _ (List.filter_sublist _)) h.1.1
        · intro r hr
          exact h.1.2 r (List.mem_filter.mp hr).1
      · intro q hq hrt2
        rcases h.2 q hq hrt2 with ⟨r, hr, hru, hro⟩
        by_cases hid : r.id = rt.id
        · exfalso
          have hreq : r = rt :=
            List.inj_on_of_nodup_map h.1.1 hr hrtm.1 hid
          have hqm : q ∈ mirrorPostsByUserPost db u pid := by
            refine List.mem_filter.mpr ⟨hq, ?_⟩
            have e1 : q.user_id = u := by rw [← hru, hreq]; exact hrtu.1
            have e2 : q.original_post_id = some pid := by
              rw [← hro, hreq, hrtu.2]
            simp [e1, e2, hrt2]
          rw [scalarOneOrNone_eq_none _ hq2] at hqm
          cases hqm
        · refine ⟨r, List.mem_filter.mpr ⟨hr, ?_⟩, hru, hro⟩
          simp [bne_iff_ne]
          exact hid
    · have hml : mirrorPostsByUserPost db u pid = [m] :=
        scalarOneOrNone_eq_some _ _ hq2
      constructor
      · constructor
        · exact List.Nodup.sublist
            ((List.Sublist.map _ (List.filter_sublist _)).trans
              (List.Sublist.map _ (List.filter_sublist _))) h.1.1
        · intro r hr
          exact h.1.2 r (List.mem_filter.mp (List.mem_filter.mp hr).1).1
      · intro q hq hrt2
        have hq' := List.mem_filter.mp hq
        rcases h.2 q hq'.1 hrt2 with ⟨r, hr, hru, hro⟩
        have hqnot := hq'.2
        have hne : r.id ≠ rt.id := by
          intro hid
          have hreq : r = rt :=
            List.inj_on_of_nodup_map h.1.1 hr hrtm.1 hid
          have hqm : q ∈ mirrorPostsByUserPost db u pid := by
            refine List.mem_filter.mpr ⟨hq'.1, ?_⟩
            have e1 : q.user_id = u := by rw [← hru, hreq]; exact hrtu.1
            have e2 : q.original_post_id = some pid := by
              rw [← hro, hreq, hrtu.2]
            simp [e1, e2, hrt2]
          rw [hml] at hqm
          have hqeq : q = m := List.mem_singleton.mp hqm
          have hroot : m.id ∈ postCascadeIds db.posts m.id :=
            closureIds_root _ _ db.posts [m.id] m.id (List.mem_singleton.mpr rfl)
          rw [hqeq] at hqnot
          rw [(contains_iff_mem _ _).mpr hroot] at hqnot
          simp at hqnot
        have hno : r.original_post_id ∉ postCascadeIds db.posts m.id := by
          intro hmem
          have hcl : q.id ∈ postCascadeIds db.posts m.id :=
            closureIds_closed _ _ db.posts [m.id] q hq'.1 r.original_post_id
              hro.symm hmem
          rw [(contains_iff_mem _ _).mpr hcl] at hqnot
          simp at hqnot
        refine ⟨r, List.mem_filter.mpr
          ⟨List.mem_filter.mpr ⟨hr, ?_⟩, ?_⟩, hru, hro⟩
        · simp [bne_iff_ne]
          exact hne
        · have hcf : (postCascadeIds db.posts m.id).contains r.original_post_id
              = false := by
            rcases hb : (postCascadeIds db.posts m.id).contains r.original_post_id
            · rfl
            · exact absurd ((contains_iff_mem _ _).mp hb) hno
          rw [hcf]
          rfl

theorem reachable_inv (db : DB) (h : Reachable db) : Inv db := by
  induction h with
  | empty => exact inv_empty
  | step db op _ ih => exact inv_step db op ih

/-- C2: in every state reachable from the empty store by the operations of
this system, every `is_retweet=true` Post row has a Retweet row with the
same (user_id, original_post_id) pair; every operation preserves this. -/
theorem reachable_mirror_invariant (db : DB) (h : Reachable db) : MirrorInv db :=
  (reachable_inv db h).2

theorem reachable_mirror_invariant_witness :
    Reachable (step (step DB.empty (Op.createPost 1 "hello")) (Op.retweet 2 1)) ∧
    MirrorInv (step (step DB.empty (Op.createPost 1 "hello")) (Op.retweet 2 1)) :=
  ⟨Reachable.step _ _ (Reachable.step _ _ Reachable.empty),
   reachable_mirror_invariant _
     (Reachable.step _ _ (Reachable.step _ _ Reachable.empty))⟩

/-- C6: `create_comment` fails NotFound when the post is absent; with a
(positive, boundary-validated) parent id it fails NotFound when the parent
comment is absent and InvalidArgument when the parent belongs to a
different post; every failure leaves the comment table unchanged; otherwise
it inserts exactly one Comment row. -/
theorem create_comment_spec (db : DB) (u : Nat) (content : String) (pid : Nat)
    (parent : Option Nat)
    (hparent : ∀ pcid, parent = some pcid → 0 < pcid) :
    (postById db pid = [] →
      create_comment db u content pid parent = .error .notFound) ∧
    (∀ p pcid, postById db pid = [p] → parent = some pcid →
      commentById db pcid = [] →
      create_comment db u content pid parent = .error .notFound) ∧
    (∀ p pcid pc, postById db pid = [p] → parent = some pcid →
      commentById db pcid = [pc] → pc.post_id ≠ pid →
      create_comment db u content pid parent = .error .invalidArgument) ∧
    (∀ e, create_comment db u content pid parent = .error e →
      step db (Op.createComment u content pid parent) = db) ∧
    (∀ p, postById db pid = [p] →
      (parent = none ∨ ∃ pcid pc, parent = some pcid ∧
        commentById db pcid = [pc] ∧ pc.post_id = pid) →
      create_comment db u content pid parent = .ok { db with
        comments := db.comments ++
          [(⟨db.nextCommentId, content, u, pid, parent, db.now, db.now⟩ :
            CommentRow)],
        nextCommentId := db.nextCommentId + 1,
        now := db.now + 1 }) := by
  refine ⟨?_, ?_, ?_, ?_, ?_⟩
  · intro h
    unfold create_comment
    rw [h]
    rfl
  · intro p pcid hp hpar hcnil
    subst hpar
    have hb : (pcid != 0) = true := by
      have := hparent pcid rfl
      simp only [bne_iff_ne, ne_eq]
      omega
    unfold create_comment
    rw [hp]
    simp [scalarOneOrNone, hb, hcnil]
  · intro p pcid pc hp hpar hcpc hne
    subst hpar
    have hb : (pcid != 0) = true := by
      have := hparent pcid rfl
      simp only [bne_iff_ne, ne_eq]
      omega
    have hb2 : (pc.post_id != pid) = true := by
      simp only [bne_iff_ne, ne_eq]
      exact hne
    unfold create_comment
    rw [hp]
    simp [scalarOneOrNone, hb, hcpc, hb2]
  · intro e he
    show (match create_comment db u content pid parent with
      | .ok db' => db'
      | .error _ => db) = db
    rw [he]
  · intro p hp hcase
    rcases hcase with rfl | ⟨pcid, pc, rfl, hcpc, hpc⟩
    · unfold create_comment
      rw [hp]
      simp [scalarOneOrNone]
    · have hb : (pcid != 0) = true := by
        have := hparent pcid rfl
        simp only [bne_iff_ne, ne_eq]
        omega
      have hb2 : (pc.post_id != pid) = false := by
        simp [hpc]
      unfold create_comment
      rw [hp]
      simp [scalarOneOrNone, hb, hcpc, hb2]

def c1row : CommentRow := ⟨1, "first", 2, 1, none, 1, 1⟩

/-- A store holding one post by user 1 and one comment on it by user 2. -/
def dbOneComment : DB := ⟨[p1row], [], [], [c1row], 2, 1, 1, 2, 2⟩

theorem create_comment_spec_witness :
    (∀ pcid, (none : Option Nat) = some pcid → 0 < pcid) ∧
    postById dbOnePost 1 = [p1row] ∧
    create_comment dbOnePost 2 "first" 1 none = .ok { dbOnePost with
      comments := dbOnePost.comments ++
        [(⟨dbOnePost.nextCommentId, "first", 2, 1, none, dbOnePost.now,
           dbOnePost.now⟩ : CommentRow)],
      nextCommentId := dbOnePost.nextCommentId + 1,
      now := dbOnePost.now + 1 } :=
  ⟨fun pcid h => absurd h (by simp), rfl,
   (create_comment_spec dbOnePost 2 "first" 1 none
     (fun pcid h => absurd h (by simp))).2.2.2.2 p1row rfl (Or.inl rfl)⟩

/-- Specification-side reply subtree: the comments transitively reachable
from `root` via `parent_comment_id` links (including `root` itself). -/
def InSubtree (cs : List CommentRow) (root i : Nat) : Prop :=
  ReachedId (fun d => d.id) (fun d => d.parent_comment_id) cs [root] i

theorem inSubtree_iff_mem (cs : List CommentRow) (root i : Nat) :
    InSubtree cs root i ↔ i ∈ commentCascadeIds cs root := by
  unfold InSubtree commentCascadeIds closureIds
  exact (mem_closureIds_iff (fun d => d.id) (fun d => d.parent_comment_id)
    cs [root] i).symm

instance (cs : List CommentRow) (root i : Nat) : Decidable (InSubtree cs root i) :=
  decidable_of_iff (i ∈ commentCascadeIds cs root) (inSubtree_iff_mem cs root i).symm

theorem decide_inSubtree_eq_contains (cs : List CommentRow) (root i : Nat) :
    decide (InSubtree cs root i) = (commentCascadeIds cs root).contains i := by
  by_cases h : InSubtree cs root i
  · rw [decide_eq_true h]
    exact ((contains_iff_mem _ _).mpr ((inSubtree_iff_mem cs root i).mp h)).symm
  · rw [decide_eq_false h]
    rcases hb : (commentCascadeIds cs root).contains i
    · rfl
    · exact absurd ((inSubtree_iff_mem cs root i).mpr
        ((contains_iff_mem _ _).mp hb)) h

/-- Splitting a count along a sub-predicate. -/
theorem countP_split {α : Type} (l : List α) (p q : α → Bool)
    (himp : ∀ x ∈ l, q x = true → p x = true) :
    l.countP p = l.countP q + l.countP (fun x => p x && !q x) := by
  induction l with
  | nil => simp
  | cons a t ih =>
    have ht : ∀ x ∈ t, q x = true → p x = true :=
      fun x hx => himp x (List.mem_cons_of_mem a hx)
    by_cases hq : q a = true
    · have hp : p a = true := himp a (List.mem_cons_self a t) hq
      simp [List.countP_cons, hp, hq, ih ht]
      omega
    · by_cases hp : p a = true
      · simp [List.countP_cons, hp, hq, ih ht]
        omega
      · simp [List.countP_cons, hp, hq, ih ht]

/-- When the keys of a list are distinct, exactly one element carries the
key of a member. -/
theorem countP_key_eq_one {α : Type} (l : List α) (key : α → Nat)
    (hnd : (l.map key).Nodup) (a : α) (ha : a ∈ l) :
    l.countP (fun x => key x == key a) = 1 := by
  induction l with
  | nil => cases ha
  | cons b t ih =>
    rw [List.map_cons, List.nodup_cons] at hnd
    rcases List.mem_cons.mp ha with rfl | hat
    · rw [List.countP_cons]
      have h0 : t.countP (fun x => key x == key a) = 0 := by
        rw [List.countP_eq_zero]
        intro x hx
        simp only [beq_iff_eq]
        intro he
        exact hnd.1 (he ▸ List.mem_map_of_mem key hx)
      simp [h0]
    · rw [List.countP_cons]
      have hb0 : (key b == key a) = false := by
        simp only [beq_eq_false_iff_ne, ne_eq]
        intro he
        exact hnd.1 (he ▸ List.mem_map_of_mem key hat)
      simp [ih hnd.2 hat, hb0]

/-- C7: deleting an existing comment by its author removes exactly the
comment and its full reply subtree — `1 + R` comment rows where `R` counts
the proper subtree — and nothing else; a non-author requester gets
PermissionDenied and the store is unchanged. -/
theorem delete_comment_spec (db : DB) (u cid : Nat) (c : CommentRow)
    (hc : commentById db cid = [c])
    (hnd : (db.comments.map (fun d => d.id)).Nodup) :
    (c.user_id ≠ u → delete_comment db u cid = .error .permissionDenied ∧
      step db (Op.deleteComment u cid) = db) ∧
    (c.user_id = u → ∃ db', delete_comment db u cid = .ok db' ∧
      db'.posts = db.posts ∧ db'.likes = db.likes ∧ db'.retweets = db.retweets ∧
      (∀ d, d ∈ db'.comments ↔
        d ∈ db.comments ∧ ¬ InSubtree db.comments cid d.id) ∧
      db.comments.length = db'.comments.length + 1 +
        db.comments.countP
          (fun d => decide (InSubtree db.comments cid d.id) && d.id != cid)) := by
  have hcmem : c ∈ db.comments ∧ (c.id == cid) = true := by
    have : c ∈ commentById db cid := by
      rw [hc]; exact List.mem_singleton.mpr rfl
    exact List.mem_filter.mp this
  have hcid : c.id = cid := by simpa using hcmem.2
  have hroot : cid ∈ commentCascadeIds db.comments cid :=
    closureIds_root _ _ db.comments [cid] cid (List.mem_singleton.mpr rfl)
  constructor
  · intro hne
    have hb : (c.user_id != u) = true := by
      simp only [bne_iff_ne, ne_eq]
      exact hne
    have herr : delete_comment db u cid = .error .permissionDenied := by
      unfold delete_comment
      rw [hc, scalarOneOrNone_single]
      simp [hb]
    refine ⟨herr, ?_⟩
    show (match delete_comment db u cid with
      | .ok db' => db'
      | .error _ => db) = db
    rw [herr]
  · intro hu
    have hb : (c.user_id != u) = false := by simp [hu]
    have hok : delete_comment db u cid = .ok { db with
        comments := db.comments.filter
          (fun d => !(commentCascadeIds db.comments cid).contains d.id) } := by
      unfold delete_comment
      rw [hc, scalarOneOrNone_single]
      simp [hb]
    refine ⟨_, hok, rfl, rfl, rfl, ?_, ?_⟩
    · intro d
      constructor
      · intro hm
        have h1 := List.mem_filter.mp hm
        refine ⟨h1.1, ?_⟩
        intro hin
        have h2 := h1.2
        rw [(contains_iff_mem _ _).mpr ((inSubtree_iff_mem _ _ _).mp hin)] at h2
        simp at h2
      · intro ⟨hm, hni⟩
        refine List.mem_filter.mpr ⟨hm, ?_⟩
        rcases hb2 : (commentCascadeIds db.comments cid).contains d.id
        · rfl
        · exact absurd ((inSubtree_iff_mem _ _ _).mpr
            ((contains_iff_mem _ _).mp hb2)) hni
    · have h1 := List.length_eq_countP_add_countP
        (fun d => (commentCascadeIds db.comments cid).contains d.id) db.comments
      have h2 : db.comments.countP
          (fun d => decide (¬ (commentCascadeIds db.comments cid).contains d.id
            = true)) =
          (db.comments.filter
            (fun d => !(commentCascadeIds db.comments cid).contains d.id)).length := by
        rw [← List.countP_eq_length_filter]
        refine List.countP_congr ?_
        intro x _
        simp
      have h3 : db.comments.countP (fun x => x.id == c.id) = 1 :=
        countP_key_eq_one db.comments (fun d => d.id) hnd c hcmem.1
      have h4 : db.comments.countP
          (fun d => (commentCascadeIds db.comments cid).contains d.id) =
          db.comments.countP (fun x => x.id == c.id) +
          db.comments.countP
            (fun d => (commentCascadeIds db.comments cid).contains d.id &&
              !(d.id == c.id)) := by
        refine countP_split _ _ _ ?_
        intro x _ hx
        rw [beq_iff_eq] at hx
        rw [hx, hcid]
        exact (contains_iff_mem _ _).mpr hroot
      have h5 : db.comments.countP
          (fun d => decide (InSubtree db.comments cid d.id) && d.id != cid) =
          db.comments.countP
            (fun d => (commentCascadeIds db.comments cid).contains d.id &&
              !(d.id == c.id)) := by
        refine List.countP_congr ?_
        intro x _
        rw [decide_inSubtree_eq_contains, hcid]
        rfl
      rw [h5]
      show db.comments.length =
        (db.comments.filter
          (fun d => !(commentCascadeIds db.comments cid).contains d.id)).length
          + 1 + _
      omega

theorem delete_comment_spec_witness :
    commentById dbOneComment 1 = [c1row] ∧
    ((dbOneComment.comments.map (fun d => d.id)).Nodup) ∧
    c1row.user_id = 2 ∧
    ∃ db', delete_comment dbOneComment 2 1 = .ok db' ∧
      db'.posts = dbOneComment.posts ∧ db'.likes = dbOneComment.likes ∧
      db'.retweets = dbOneComment.retweets ∧
      (∀ d, d ∈ db'.comments ↔
        d ∈ dbOneComment.comments ∧
          ¬ InSubtree dbOneComment.comments 1 d.id) ∧
      dbOneComment.comments.length = db'.comments.length + 1 +
        dbOneComment.comments.countP
          (fun d => decide (InSubtree dbOneComment.comments 1 d.id) &&
            d.id != 1) :=
  ⟨rfl, by decide, rfl,
   (delete_comment_spec dbOneComment 2 1 c1row rfl (by decide)).2 rfl⟩

/-- C10: updating an existing comment as its author succeeds and changes
only that comment's `content` (plus the store-refreshed `updated_at`); its
id, post, parent, author and creation time are untouched, the comment table
keeps its length and order, and no Post, Like or Retweet row changes. -/
theorem update_comment_frame (db : DB) (u cid : Nat) (content : String)
    (c : CommentRow) (hc : commentById db cid = [c]) (hu : c.user_id = u) :
    ∃ db', update_comment db u cid content = .ok db' ∧
      db'.posts = db.posts ∧ db'.likes = db.likes ∧ db'.retweets = db.retweets ∧
      db'.comments.length = db.comments.length ∧
      List.Forall₂ (fun d d' =>
        (d.id ≠ cid → d' = d) ∧
        (d.id = cid → d'.id = d.id ∧ d'.content = content ∧
          d'.user_id = d.user_id ∧ d'.post_id = d.post_id ∧
          d'.parent_comment_id = d.parent_comment_id ∧
          d'.created_at = d.created_at ∧ d'.updated_at = db.now))
        db.comments db'.comments := by
  have hb : (c.user_id != u) = false := by simp [hu]
  have hok : update_comment db u cid content = .ok { db with
      comments := db.comments.map (fun d =>
        if d.id == cid then
          { d with content := content, updated_at := db.now } else d),
      now := db.now + 1 } := by
    unfold update_comment
    rw [hc, scalarOneOrNone_single]
    simp [hb]
  refine ⟨_, hok, rfl, rfl, rfl, List.length_map _ _, ?_⟩
  rw [List.forall₂_map_right_iff, List.forall₂_same]
  intro x _
  constructor
  · intro hne
    have hbe : (x.id == cid) = false := by
      simp only [beq_eq_false_iff_ne, ne_eq]
      exact hne
    simp [hbe]
  · intro heq
    have hbe : (x.id == cid) = true := by simp [heq]
    simp [hbe]

theorem update_comment_frame_witness :
    commentById dbOneComment 1 = [c1row] ∧ c1row.user_id = 2 ∧
    ∃ db', update_comment dbOneComment 2 1 "edited" = .ok db' ∧
      db'.posts = dbOneComment.posts ∧ db'.likes = dbOneComment.likes ∧
      db'.retweets = dbOneComment.retweets ∧
      db'.comments.length = dbOneComment.comments.length ∧
      List.Forall₂ (fun d d' =>
        (d.id ≠ 1 → d' = d) ∧
        (d.id = 1 → d'.id = d.id ∧ d'.content = "edited" ∧
          d'.user_id = d.user_id ∧ d'.post_id = d.post_id ∧
          d'.parent_comment_id = d.parent_comment_id ∧
          d'.created_at = d.created_at ∧ d'.updated_at = dbOneComment.now))
        dbOneComment.comments db'.comments :=
  ⟨rfl, rfl, update_comment_frame dbOneComment 2 1 "edited" c1row rfl rfl⟩

/-- Count of Retweet rows naming the post as original, as queried by
`_build_post_response`. -/
def retweetCount (db : DB) (pid : Nat) : Nat :=
  (db.retweets.filter (fun r => r.original_post_id == pid)).length

/-- Count of Comment rows on the post, as queried by `_build_post_response`. -/
def commentCount (db : DB) (pid : Nat) : Nat :=
  (db.comments.filter (fun c => c.post_id == pid)).length

/-- The enriched post representation returned by `_build_post_response`
(`app/api/routes/posts.py` lines 239-297); `author` stands for the resolved
author User, identified here by id. -/
structure PostResponse where
  id : Nat
  content : String
  created_at : Nat
  is_retweet : Bool
  author : Nat
  like_count : Nat
  retweet_count : Nat
  comment_count : Nat
  is_liked_by_current_user : Bool
  is_retweeted_by_current_user : Bool
deriving DecidableEq, Repr

/-- `_build_post_response` (`app/api/routes/posts.py` lines 239-297):
recompute the three counts on every read; when an authenticated viewer id is
present (Python truthiness: `if current_user_id:`, so `None` and `0` are
falsy) look up the viewer's Like and Retweet rows for the post with
`scalar_one_or_none`; otherwise both viewer flags default to false. -/
def build_post_response (db : DB) (post : PostRow) (viewer : Option Nat) :
    Except Err PostResponse :=
  match viewer with
  | some v =>
    if v != 0 then
      match scalarOneOrNone (likesByUserPost db v post.id) with
      | .error e => .error e
      | .ok lk =>
        match scalarOneOrNone (retweetsByUserPost db v post.id) with
        | .error e => .error e
        | .ok rt =>
          .ok ⟨post.id, post.content, post.created_at, post.is_retweet,
            post.user_id, likeCount db post.id, retweetCount db post.id,
            commentCount db post.id, lk.isSome, rt.isSome⟩
    else
      .ok ⟨post.id, post.content, post.created_at, post.is_retweet,
        post.user_id, likeCount db post.id, retweetCount db post.id,
        commentCount db post.id, false, false⟩
  | none =>
    .ok ⟨post.id, post.content, post.created_at, post.is_retweet,
      post.user_id, likeCount db post.id, retweetCount db post.id,
      commentCount db post.id, false, false⟩

/-- C8: the enriched representation of a post carries the exact Like,
Retweet (by original_post_id) and Comment row counts; `is_liked` holds
exactly when a (nonzero) viewer is supplied and a Like row (viewer, post)
exists, `is_retweeted` analogously for Retweet rows; with no viewer both
flags are false. -/
theorem build_post_response_spec (db : DB) (post : PostRow)
    (viewer : Option Nat) (hv : viewer ≠ some 0) :
    ∀ resp, build_post_response db post viewer = .ok resp →
      resp.like_count = likeCount db post.id ∧
      resp.retweet_count = retweetCount db post.id ∧
      resp.comment_count = commentCount db post.id ∧
      (resp.is_liked_by_current_user = true ↔
        ∃ v, viewer = some v ∧
          ∃ l ∈ db.likes, l.user_id = v ∧ l.post_id = post.id) ∧
      (resp.is_retweeted_by_current_user = true ↔
        ∃ v, viewer = some v ∧
          ∃ r ∈ db.retweets, r.user_id = v ∧
            r.original_post_id = post.id) ∧
      (viewer = none → resp.is_liked_by_current_user = false ∧
        resp.is_retweeted_by_current_user = false) := by
  intro resp h
  cases viewer with
  | none =>
    unfold build_post_response at h
    cases h
    refine ⟨rfl, rfl, rfl, ?_, ?_, fun _ => ⟨rfl, rfl⟩⟩
    · constructor
      · intro hfalse; cases hfalse
      · intro ⟨v, hv', _⟩; cases hv'
    · constructor
      · intro hfalse; cases hfalse
      · intro ⟨v, hv', _⟩; cases hv'
  | some v =>
    have hvz : (v != 0) = true := by
      simp only [bne_iff_ne, ne_eq]
      intro h0
      exact hv (by rw [h0])
    unfold build_post_response at h
    simp only [hvz, if_true] at h
    cases hq1 : scalarOneOrNone (likesByUserPost db v post.id) with
    | error e => simp only [hq1] at h; cases h
    | ok lk =>
      simp only [hq1] at h
      cases hq2 : scalarOneOrNone (retweetsByUserPost db v post.id) with
      | error e => simp only [hq2] at h; cases h
      | ok rt =>
        simp only [hq2] at h
        cases h
        refine ⟨rfl, rfl, rfl, ?_, ?_, fun hn => by cases hn⟩
        · constructor
          · intro hs
            cases lk with
            | none => cases hs
            | some l =>
              have hl : l ∈ likesByUserPost db v post.id := by
                rw [scalarOneOrNone_eq_some _ _ hq1]
                exact List.mem_singleton.mpr rfl
              have hlm := List.mem_filter.mp hl
              have hlp := hlm.2
              simp only [Bool.and_eq_true, beq_iff_eq] at hlp
              exact ⟨v, rfl, l, hlm.1, hlp.1, hlp.2⟩
          · intro ⟨w, hw, l, hlm, hlu, hlp⟩
            cases hw
            cases lk with
            | some l' => rfl
            | none =>
              exfalso
              have hl : l ∈ likesByUserPost db v post.id :=
                List.mem_filter.mpr ⟨hlm, by simp [hlu, hlp]⟩
              rw [scalarOneOrNone_eq_none _ hq1] at hl
              cases hl
        · constructor
          · intro hs
            cases rt with
            | none => cases hs
            | some r =>
              have hr : r ∈ retweetsByUserPost db v post.id := by
                rw [scalarOneOrNone_eq_some _ _ hq2]
                exact List.mem_singleton.mpr rfl
              have hrm := List.mem_filter.mp hr
              have hrp := hrm.2
              simp only [Bool.and_eq_true, beq_iff_eq] at hrp
              exact ⟨v, rfl, r, hrm.1, hrp.1, hrp.2⟩
          · intro ⟨w, hw, r, hrm, hru, hrp⟩
            cases hw
            cases rt with
            | some r' => rfl
            | none =>
              exfalso
              have hr : r ∈ retweetsByUserPost db v post.id :=
                List.mem_filter.mpr ⟨hrm, by simp [hru, hrp]⟩
              rw [scalarOneOrNone_eq_none _ hq2] at hr
              cases hr

/-- The store after user 2 likes post 1 in `dbOnePost`. -/
def dbLiked : DB := ⟨[p1row], [⟨1, 2, 1, 1⟩], [], [], 2, 2, 1, 1, 2⟩

theorem build_post_response_spec_witness :
    ((some 2 : Option Nat) ≠ some 0) ∧
    ∃ resp, build_post_response dbLiked p1row (some 2) = .ok resp ∧
      resp.like_count = likeCount dbLiked 1 ∧
      (resp.is_liked_by_current_user = true ↔
        ∃ v, (some 2 : Option Nat) = some v ∧
          ∃ l ∈ dbLiked.likes, l.user_id = v ∧ l.post_id = p1row.id) :=
  ⟨by simp,
   ⟨⟨1, "hello", 0, false, 1, 1, 0, 0, true, false⟩, rfl,
    (build_post_response_spec dbLiked p1row (some 2) (by simp)
      ⟨1, "hello", 0, false, 1, 1, 0, 0, true, false⟩ rfl).1,
    (build_post_response_spec dbLiked p1row (some 2) (by simp)
      ⟨1, "hello", 0, false, 1, 1, 0, 0, true, false⟩ rfl).2.2.2.1⟩⟩

/-- The enriched comment representation returned by
`_build_comment_response` (`app/api/routes/comments.py` lines 329-352);
`author` stands for the resolved author User, identified here by id. -/
structure CommentResponse where
  id : Nat
  content : String
  post_id : Nat
  parent_comment_id : Option Nat
  created_at : Nat
  updated_at : Nat
  author : Nat
  reply_count : Nat
deriving DecidableEq, Repr

/-- `_build_comment_response`: attach the author and the count of direct
replies (`Comment.parent_comment_id == comment.id`). -/
def build_comment_response (db : DB) (c : CommentRow) : CommentResponse :=
  ⟨c.id, c.content, c.post_id, c.parent_comment_id, c.created_at, c.updated_at,
   c.user_id,
   (db.comments.filter (fun d => d.parent_comment_id == some c.id)).length⟩

/-- The list envelope shared by the listing endpoints. -/
structure CommentListEnvelope where
  items : List CommentResponse
  total : Nat
  page : Nat
  page_size : Nat
  total_pages : Nat
deriving DecidableEq, Repr

/-- Insertion step of the descending sort standing for
`ORDER BY created_at DESC`. -/
def insertDescBy {α : Type} (key : α → Nat) (a : α) : List α → List α
  | [] => [a]
  | b :: bs => if key b < key a then a :: b :: bs else b :: insertDescBy key a bs

/-- The store's `ORDER BY key DESC` on a row list (insertion sort). -/
def sortDescBy {α : Type} (key : α → Nat) : List α → List α
  | [] => []
  | a :: as => insertDescBy key a (sortDescBy key as)

/-- Modelled from the spec: `PaginationParams` lives in
`app/api/dependencies.py`, which is absent from the provided source tree;
the spec states that the service computes `skip = (page-1)*pageSize` from
the 1-based page number. -/
def paginationSkip (page pageSize : Nat) : Nat := (page - 1) * pageSize

/-- `select(Comment).where(Comment.post_id == pid,
Comment.parent_comment_id.is_(None))`. -/
def topLevelComments (db : DB) (pid : Nat) : List CommentRow :=
  db.comments.filter (fun c => c.post_id == pid && c.parent_comment_id == none)

/-- The top-level comments of a post in listing order (created_at
descending). -/
def topLevelCommentsOrdered (db : DB) (pid : Nat) : List CommentRow :=
  sortDescBy (fun c => c.created_at) (topLevelComments db pid)

/-- `get_post_comments` (`app/api/routes/comments.py` lines 78-138): 404 if
the post is absent; otherwise count the top-level comments, fetch one page
of them ordered by creation time descending with `offset skip` and
`limit page_size`, enrich each, and return the envelope with
`total_pages = (total + page_size - 1) // page_size`. -/
def get_post_comments (db : DB) (pid page pageSize : Nat) :
    Except Err CommentListEnvelope :=
  match scalarOneOrNone (postById db pid) with
  | .error e => .error e
  | .ok none => .error .notFound
  | .ok (some _) =>
    .ok ⟨(((topLevelCommentsOrdered db pid).drop
            (paginationSkip page pageSize)).take pageSize).map
          (build_comment_response db),
      (topLevelComments db pid).length, page, pageSize,
      ((topLevelComments db pid).length + pageSize - 1) / pageSize⟩

/-- C9: for an existing post and page size ≥ 1, the returned envelope skips
exactly `(page-1)*pageSize` items of the enriched listing, reports the
total count of top-level comments, and `total_pages` is the exact ceiling
of `total / pageSize`: the least `m` with `total ≤ pageSize * m`. -/
theorem get_post_comments_pagination (db : DB) (pid page pageSize : Nat)
    (p : PostRow) (hp : postById db pid = [p]) (hsize : 0 < pageSize) :
    ∃ env, get_post_comments db pid page pageSize = .ok env ∧
      env.items = (((topLevelCommentsOrdered db pid).map
        (build_comment_response db)).drop ((page - 1) * pageSize)).take
          pageSize ∧
      env.total = (topLevelComments db pid).length ∧
      env.page = page ∧
      env.page_size = pageSize ∧
      env.total_pages = (env.total + pageSize - 1) / pageSize ∧
      env.total ≤ pageSize * env.total_pages ∧
      (∀ m : Nat, env.total ≤ pageSize * m → env.total_pages ≤ m) := by
  have hok : get_post_comments db pid page pageSize = .ok
      ⟨(((topLevelCommentsOrdered db pid).drop
          (paginationSkip page pageSize)).take pageSize).map
        (build_comment_response db),
       (topLevelComments db pid).length, page, pageSize,
       ((topLevelComments db pid).length + pageSize - 1) / pageSize⟩ := by
    unfold get_post_comments
    rw [hp]
    rfl
  refine ⟨_, hok, ?_, rfl, rfl, rfl, rfl, ?_, ?_⟩
  · show (((topLevelCommentsOrdered db pid).drop
        (paginationSkip page pageSize)).take pageSize).map
          (build_comment_response db) = _
    rw [List.map_take, List.map_drop]
    rfl
  · show (topLevelComments db pid).length ≤
      pageSize * (((topLevelComments db pid).length + pageSize - 1) / pageSize)
    by_contra hlt
    push_neg at hlt
    have h2 : (((topLevelComments db pid).length + pageSize - 1) / pageSize + 1)
        * pageSize ≤ (topLevelComments db pid).length + pageSize - 1 := by
      rw [Nat.add_mul, one_mul, Nat.mul_comm]
      omega
    have h3 := (Nat.le_div_iff_mul_le hsize).mpr h2
    omega
  · intro m hm
    have hm' : (topLevelComments db pid).length ≤ pageSize * m := hm
    show (((topLevelComments db pid).length + pageSize - 1) / pageSize) ≤ m
    by_contra hlt
    push_neg at hlt
    have h2 : m + 1 ≤
        ((topLevelComments db pid).length + pageSize - 1) / pageSize := by
      omega
    have h3 := (Nat.le_div_iff_mul_le hsize).mp h2
    rw [Nat.add_mul, one_mul] at h3
    rw [Nat.mul_comm] at hm'
    omega

/-- A store with one post and 25 top-level comments on it, with distinct
creation times `1..25`. -/
def dbC9 : DB :=
  ⟨[p1row], [], [],
   (List.range 25).map (fun i =>
     (⟨i + 1, "c", 2, 1, none, i + 1, i + 1⟩ : CommentRow)),
   2, 1, 1, 26, 26⟩

theorem get_post_comments_pagination_witness :
    postById dbC9 1 = [p1row] ∧ 0 < 10 ∧
    ∃ env, get_post_comments dbC9 1 2 10 = .ok env ∧
      env.total = 25 ∧ env.total_pages = 3 ∧ env.page = 2 ∧
      env.items.map (fun r => r.id) =
        [15, 14, 13, 12, 11, 10, 9, 8, 7, 6] := by
  obtain ⟨env, h1, h2, h3, h4, h5, h6, h7, h8⟩ :=
    get_post_comments_pagination dbC9 1 2 10 p1row rfl (by decide)
  have htot : env.total = 25 := h3.trans (by decide)
  refine ⟨rfl, by decide, env, h1, htot, ?_, h4, ?_⟩
  · rw [h6, htot]
  · rw [h2]
    decide

end Echo
